import Mathlib

/-!
# NimbusTasks: verification of the Store/Controller logic

Shallow embedding of the task-management core of the NimbusTasks desktop
widget (`src/storage.py` and `src/ui.py`).

Modelling conventions:
* A calendar date is represented by its rata-die day number (a `Nat`):
  day 1 is 0001-01-01, which is a Monday.  This matches QDate, whose
  internal representation is a Julian day number and whose comparison
  operators, `addDays` and `dayOfWeek` act on that number.  The
  `yyyy-MM-dd` strings stored in the database are in bijection with
  valid dates, so equality of stored date strings is equality of day
  numbers.
* Each sqlite table `(id INTEGER PRIMARY KEY AUTOINCREMENT, date, text)`
  becomes a `Store`: a list of rows in insertion order plus the next
  AUTOINCREMENT id.  `INSERT` appends a row carrying the next id;
  `DELETE ... WHERE id = ?` filters the list.
* The two databases `tasks.db` / `completed_tasks.db` become the two
  fields of `DB`.
-/

/-- `QDate.isLeapYear`: Gregorian leap-year test. -/
def isLeap (y : Nat) : Bool :=
  (y % 4 == 0 && y % 100 != 0) || y % 400 == 0

/-- Days in the months before month `m` (1-based) of a non-leap year. -/
def monthDaysBefore (m : Nat) : Nat :=
  [0, 31, 59, 90, 120, 151, 181, 212, 243, 273, 304, 334].getD (m - 1) 0

/-- Rata-die day number of the Gregorian date `y-m-d` (0001-01-01 = 1). -/
def rataDie (y m d : Nat) : Nat :=
  365 * (y - 1) + (y - 1) / 4 - (y - 1) / 100 + (y - 1) / 400
    + monthDaysBefore m + (if isLeap y && decide (2 < m) then 1 else 0) + d

/-- `QDate.dayOfWeek`: 1 = Monday, ..., 7 = Sunday. -/
def dayOfWeek (n : Nat) : Nat := (n - 1) % 7 + 1

/-- Gregorian year/month/day of a rata-die day number (inverse of
`rataDie`, via the standard civil-from-days division algorithm). -/
def civilFromDays (n : Nat) : Nat × Nat × Nat :=
  let z := n + 305
  let era := z / 146097
  let doe := z % 146097
  let yoe := (doe - doe / 1460 + doe / 36524 - doe / 146096) / 365
  let y := yoe + era * 400
  let doy := doe - (365 * yoe + yoe / 4 - yoe / 100)
  let mp := (5 * doy + 2) / 153
  let dd := doy - (153 * mp + 2) / 5 + 1
  let m := if mp < 10 then mp + 3 else mp - 9
  (if m ≤ 2 then y + 1 else y, m, dd)

/-- `QDate.year()` of a day number. -/
def yearOf (n : Nat) : Nat := (civilFromDays n).1

/-- `QDate.month()` of a day number. -/
def monthOf (n : Nat) : Nat := (civilFromDays n).2.1

/-- One row of a task table: `(id, date, text)`. -/
structure TaskRow where
  id : Nat
  date : Nat
  text : String
deriving DecidableEq, Repr

/-- One sqlite table `(id INTEGER PRIMARY KEY AUTOINCREMENT, date, text)`:
rows in insertion order plus the next AUTOINCREMENT id. -/
structure Store where
  nextId : Nat
  rows : List TaskRow
deriving DecidableEq, Repr

/-- `INSERT INTO ... (date, text) VALUES (?, ?)`: append a row with the
next AUTOINCREMENT id. -/
def Store.insert (s : Store) (date : Nat) (text : String) : Store :=
  { nextId := s.nextId + 1, rows := s.rows ++ [⟨s.nextId, date, text⟩] }

/-- `DELETE FROM ... WHERE id = ?`. -/
def Store.deleteId (s : Store) (tid : Nat) : Store :=
  { s with rows := s.rows.filter (fun r => r.id != tid) }

/-- The persistent state: `tasks.db` (Active) and `completed_tasks.db`
(Completed). -/
structure DB where
  tasks : Store
  completed : Store
deriving DecidableEq, Repr

/-- `storage.add_task_to_db(date_str, text)`. -/
def add_task_to_db (db : DB) (date : Nat) (text : String) : DB :=
  { db with tasks := db.tasks.insert date text }

/-- `storage.add_recurring_tasks_to_db(task_entries)`: `executemany`
inserts the entries one after another in a single batch/transaction. -/
def add_recurring_tasks_to_db (db : DB) (task_entries : List (Nat × String)) : DB :=
  { db with tasks := task_entries.foldl (fun s e => s.insert e.1 e.2) db.tasks }

/-- `storage.get_tasks_for_date(date_str)`: `SELECT id, text FROM tasks
WHERE date = ?`, in insertion (rowid) order. -/
def get_tasks_for_date (db : DB) (date : Nat) : List (Nat × String) :=
  (db.tasks.rows.filter (fun r => r.date == date)).map (fun r => (r.id, r.text))

/-- `storage.get_completed_tasks_for_date(date_str)`. -/
def get_completed_tasks_for_date (db : DB) (date : Nat) : List (Nat × String) :=
  (db.completed.rows.filter (fun r => r.date == date)).map (fun r => (r.id, r.text))

/-- `storage.complete_task(task_id, date_str, text)`: insert `(date, text)`
into `completed_tasks.db` (unconditionally), then delete `task_id` from
`tasks.db`. -/
def complete_task (db : DB) (task_id : Nat) (date : Nat) (text : String) : DB :=
  { tasks := db.tasks.deleteId task_id,
    completed := db.completed.insert date text }

/-- `storage.uncomplete_task(task_id, date_str, text)`: insert `(date,
text)` into `tasks.db` only if no row with that `(date, text)` is already
present, then delete `task_id` from `completed_tasks.db`. -/
def uncomplete_task (db : DB) (task_id : Nat) (date : Nat) (text : String) : DB :=
  let already := db.tasks.rows.any (fun r => r.date == date && r.text == text)
  { tasks := if already then db.tasks else db.tasks.insert date text,
    completed := db.completed.deleteId task_id }

/-- `storage.delete_task(task_id)`. -/
def delete_task (db : DB) (task_id : Nat) : DB :=
  { db with tasks := db.tasks.deleteId task_id }

/-- `storage.delete_completed_task(task_id)`. -/
def delete_completed_task (db : DB) (task_id : Nat) : DB :=
  { db with completed := db.completed.deleteId task_id }

/-- `storage.get_all_task_dates()`: distinct dates present in either
store (a python set; the highlight loop is insensitive to its order). -/
def get_all_task_dates (db : DB) : List Nat :=
  ((db.tasks.rows.map (fun r => r.date)) ++ (db.completed.rows.map (fun r => r.date))).dedup

/-! ## Controller layer (`src/ui.py`, `TaskManagerWidget`) -/

/-- `day_name_map = ['Mon', 'Tue', 'Wed', 'Thu', 'Fri', 'Sat', 'Sun']`
in `TaskManagerWidget.add_task`. -/
def day_name_map : List String :=
  ["Mon", "Tue", "Wed", "Thu", "Fri", "Sat", "Sun"]

/-- `day_name_map[d.dayOfWeek()-1]`: the weekday name of day number `d`. -/
def dayName (d : Nat) : String := day_name_map.getD (dayOfWeek d - 1) ""

/-- The recurrence request built by `AddTaskDialog.get_recurring_details`. -/
structure RecurringDetails where
  start_date : Nat
  end_date : Nat
  days : List String

/-- The `while d <= end` loop of `TaskManagerWidget.add_task`: collect one
`(date, text)` entry per date in `[d, end_date]` (stepping `d.addDays(1)`)
whose weekday name is among `days`. -/
def recurrence_entries (d end_date : Nat) (days : List String) (text : String) :
    List (Nat × String) :=
  if h : d ≤ end_date then
    (if dayName d ∈ days then [(d, text)] else [])
      ++ recurrence_entries (d + 1) end_date days text
  else []
termination_by end_date + 1 - d
decreasing_by omega

/-- `TaskManagerWidget.add_task(text, recurring_details)`: a single insert
for the current date, or a single batch insert of the recurrence
expansion. -/
def add_task (db : DB) (current_date : Nat) (text : String)
    (recurring_details : Option RecurringDetails) : DB :=
  match recurring_details with
  | none => add_task_to_db db current_date text
  | some rd =>
      add_recurring_tasks_to_db db
        (recurrence_entries rd.start_date rd.end_date rd.days text)

/-- The calendar text format a date ends up with after
`update_calendar_task_highlights`: blue "today", red "overdue", green
"all done", or no special format. -/
inductive Highlight where
  | noneH
  | todayH
  | overdueH
  | allDoneH
deriving DecidableEq, Repr

/-- One iteration of the `for date_str in all_dates` loop of
`TaskManagerWidget.update_calendar_task_highlights`, acting on the map
from dates to their current format: skip dates outside the visible
year+month, skip today, paint past dates with incomplete tasks red,
paint dates whose tasks are all completed green. -/
def highlight_step (db : DB) (today visY visM : Nat) (fmt : Nat → Highlight)
    (dstr : Nat) : Nat → Highlight :=
  if yearOf dstr ≠ visY ∨ monthOf dstr ≠ visM then fmt
  else if dstr = today then fmt
  else if get_tasks_for_date db dstr ≠ [] then
    if dstr < today then (fun x => if x = dstr then .overdueH else fmt x) else fmt
  else if get_completed_tasks_for_date db dstr ≠ [] then
    (fun x => if x = dstr then .allDoneH else fmt x)
  else fmt

/-- `TaskManagerWidget.update_calendar_task_highlights`: clear all date
formats, run the loop over every date that has tasks (scoped to the
year+month of the calendar's selected date), then give today the blue
bold format unconditionally. -/
def update_calendar_task_highlights (db : DB) (today selected : Nat) :
    Nat → Highlight :=
  let visY := yearOf selected
  let visM := monthOf selected
  let afterLoop :=
    (get_all_task_dates db).foldl (highlight_step db today visY visM)
      (fun _ => Highlight.noneH)
  fun x => if x = today then .todayH else afterLoop x

/-- One row of the task list as displayed by
`TaskManagerWidget.load_tasks_for_date`: text, done flag, whether its
checkbox (complete/uncomplete toggle) and delete button are enabled, and
the backing record id. -/
structure TaskItemView where
  text : String
  done : Bool
  checkbox_enabled : Bool
  delete_enabled : Bool
  tid : Nat
deriving DecidableEq, Repr

/-- `TaskManagerWidget.load_tasks_for_date(qdate)`: the displayed list
(incomplete tasks first, then completed ones) together with the enabled
state of the task input field and of the Add button.  For a past date the
incomplete tasks get checkbox and delete disabled; completed tasks always
keep their checkbox enabled (toggle back) and their delete disabled. -/
def load_tasks_for_date (db : DB) (today qdate : Nat) :
    List TaskItemView × Bool × Bool :=
  let is_past : Bool := decide (qdate < today)
  let act := (get_tasks_for_date db qdate).map
    (fun p => TaskItemView.mk p.2 false (!is_past) (!is_past) p.1)
  let comp := (get_completed_tasks_for_date db qdate).map
    (fun p => TaskItemView.mk p.2 true true false p.1)
  (act ++ comp, !is_past, !is_past)

/-! ## Derived predicates used by the statements -/

/-- The format a single date receives from one pass of the highlight
loop, read off the branch structure of `highlight_step` (proved equal to
the loop's overall effect in `foldl_highlight_point` below). -/
def highlight_for (db : DB) (today visY visM dstr : Nat) : Highlight :=
  if yearOf dstr ≠ visY ∨ monthOf dstr ≠ visM then .noneH
  else if dstr = today then .noneH
  else if get_tasks_for_date db dstr ≠ [] then
    (if dstr < today then .overdueH else .noneH)
  else if get_completed_tasks_for_date db dstr ≠ [] then .allDoneH
  else .noneH

/-- The invariant claimed by the specification: for every date the Active
and Completed records of that date carry disjoint sets of ids. -/
def DisjointIds (db : DB) : Prop :=
  ∀ r ∈ db.tasks.rows, ∀ s ∈ db.completed.rows, r.date = s.date → r.id ≠ s.id

/-- Well-formedness of one AUTOINCREMENT table: every stored id is below
the next id to be assigned, and ids are pairwise distinct. -/
def StoreIdsOk (s : Store) : Prop :=
  (∀ r ∈ s.rows, r.id < s.nextId) ∧ s.rows.Pairwise (fun a b => a.id ≠ b.id)

/-- Both tables are well-formed. -/
def DBIdsOk (db : DB) : Prop := StoreIdsOk db.tasks ∧ StoreIdsOk db.completed

/-! ## Helper lemmas -/

theorem recurrence_entries_countP (s e : Nat) (days : List String) (t : String) (d : Nat) :
    (recurrence_entries s e days t).countP (fun p => p.1 == d)
      = if s ≤ d ∧ d ≤ e ∧ dayName d ∈ days then 1 else 0 := by
  induction s, e, days, t using recurrence_entries.induct with
  | case1 s e days t hse ih =>
      rw [recurrence_entries, dif_pos hse, List.countP_append, ih]
      by_cases hd : s = d
      · subst hd
        have h1 : ¬ (s + 1 ≤ s) := by omega
        by_cases hm : dayName s ∈ days
        · simp [hm, h1, hse]
        · simp [hm, h1]
      · have h0 : (if dayName s ∈ days then [(s, t)] else []).countP
            (fun p => p.1 == d) = 0 := by
          split <;> simp [hd]
        have h2 : (s + 1 ≤ d) ↔ (s ≤ d) := by omega
        rw [h0, Nat.zero_add]
        simp [h2]
  | case2 s e days t hse =>
      rw [recurrence_entries, dif_neg hse]
      have hcond : ¬ (s ≤ d ∧ d ≤ e ∧ dayName d ∈ days) := by
        rintro ⟨a, b, -⟩; exact hse (le_trans a b)
      simp [hcond]

theorem recurrence_entries_mem (s e : Nat) (days : List String) (t : String) :
    ∀ p ∈ recurrence_entries s e days t,
      p.2 = t ∧ s ≤ p.1 ∧ p.1 ≤ e ∧ dayName p.1 ∈ days := by
  induction s, e, days, t using recurrence_entries.induct with
  | case1 s e days t hse ih =>
      intro p hp
      rw [recurrence_entries, dif_pos hse, List.mem_append] at hp
      rcases hp with h | h
      · by_cases hm : dayName s ∈ days
        · rw [if_pos hm] at h
          simp only [List.mem_singleton] at h
          subst h
          exact ⟨rfl, le_refl s, hse, hm⟩
        · rw [if_neg hm] at h
          simp at h
      · obtain ⟨h1, h2, h3, h4⟩ := ih p h
        exact ⟨h1, by omega, h3, h4⟩
  | case2 s e days t hse =>
      intro p hp
      rw [recurrence_entries, dif_neg hse] at hp
      simp at hp

theorem foldl_insert_rows (entries : List (Nat × String)) : ∀ st : Store,
    ((entries.foldl (fun s e => s.insert e.1 e.2) st).rows).map (fun r => (r.date, r.text))
      = st.rows.map (fun r => (r.date, r.text)) ++ entries := by
  induction entries with
  | nil => intro st; simp
  | cons a l ih =>
      intro st
      rw [List.foldl_cons, ih]
      simp [Store.insert]

/-! ## Claim theorems -/

/-- **C1**: `add_task` with a recurrence request `{start_date, end_date,
days_of_week}` appends, as a single batch to the Active store, exactly
one record `(d, text)` per date `d` in the inclusive range
`[start_date, end_date]` whose weekday name is in `days_of_week`,
iterating from start to end; when `start_date > end_date` nothing is
inserted and no error occurs; and with start = 2024-06-03 (Monday),
end = 2024-06-09 (Sunday), days = {Mon, Wed, Fri} the expansion is
exactly the three records dated 2024-06-03, 2024-06-05, 2024-06-07. -/
theorem recurrence_expansion_spec (db : DB) (cur : Nat) (text : String)
    (rd : RecurringDetails) :
    ((add_task db cur text (some rd)).tasks.rows.map (fun r => (r.date, r.text))
        = db.tasks.rows.map (fun r => (r.date, r.text))
            ++ recurrence_entries rd.start_date rd.end_date rd.days text)
    ∧ (add_task db cur text (some rd)).completed = db.completed
    ∧ (∀ d : Nat,
        (recurrence_entries rd.start_date rd.end_date rd.days text).countP
            (fun p => p.1 == d)
          = if rd.start_date ≤ d ∧ d ≤ rd.end_date ∧ dayName d ∈ rd.days then 1 else 0)
    ∧ (∀ p ∈ recurrence_entries rd.start_date rd.end_date rd.days text,
        p.2 = text ∧ rd.start_date ≤ p.1 ∧ p.1 ≤ rd.end_date ∧ dayName p.1 ∈ rd.days)
    ∧ (rd.end_date < rd.start_date → add_task db cur text (some rd) = db)
    ∧ recurrence_entries (rataDie 2024 6 3) (rataDie 2024 6 9) ["Mon", "Wed", "Fri"] text
        = [(rataDie 2024 6 3, text), (rataDie 2024 6 5, text), (rataDie 2024 6 7, text)] := by
  refine ⟨?_, rfl, fun d => recurrence_entries_countP _ _ _ _ d,
    recurrence_entries_mem _ _ _ _, ?_, ?_⟩
  · simpa [add_task, add_recurring_tasks_to_db] using
      foldl_insert_rows (recurrence_entries rd.start_date rd.end_date rd.days text) db.tasks
  · intro hlt
    have hempty : recurrence_entries rd.start_date rd.end_date rd.days text = [] := by
      rw [recurrence_entries, dif_neg (by omega)]
    simp [add_task, add_recurring_tasks_to_db, hempty]
  · simp [recurrence_entries, dayName, dayOfWeek, day_name_map, rataDie,
      monthDaysBefore, isLeap]

/-- Witness for **C1**: a recurrence request whose start date (2024-06-09)
lies after its end date (2024-06-03) inserts nothing and raises no
error. -/
theorem recurrence_expansion_spec_witness :
    add_task ⟨⟨1, []⟩, ⟨1, []⟩⟩ 739040 "todo" (some ⟨739046, 739040, ["Mon"]⟩)
      = ⟨⟨1, []⟩, ⟨1, []⟩⟩ :=
  (recurrence_expansion_spec ⟨⟨1, []⟩, ⟨1, []⟩⟩ 739040 "todo"
    ⟨739046, 739040, ["Mon"]⟩).2.2.2.2.1 (by decide)

/-- **C7**: adding a task with no recurrence appends exactly one Active
record with that text for the current date and leaves the Completed
records of that date unchanged. -/
theorem add_single_task_spec (db : DB) (date : Nat) (text : String) :
    ((get_tasks_for_date (add_task db date text none) date).countP
        (fun p => p.2 == text)
      = (get_tasks_for_date db date).countP (fun p => p.2 == text) + 1)
    ∧ get_completed_tasks_for_date (add_task db date text none) date
        = get_completed_tasks_for_date db date := by
  constructor
  · simp [add_task, add_task_to_db, Store.insert, get_tasks_for_date,
      List.filter_append, List.countP_append]
  · rfl

/-- **C2**: `uncomplete_task(id, date, text)` inserts an Active record
`(date, text)` exactly when no Active record with that `(date, text)`
already exists (so it never creates a duplicate), and in either case
deletes `id` from the Completed store. -/
theorem uncomplete_task_spec (db : DB) (tid date : Nat) (text : String) :
    ((¬ ∃ r ∈ db.tasks.rows, r.date = date ∧ r.text = text) →
        (uncomplete_task db tid date text).tasks = db.tasks.insert date text)
    ∧ ((∃ r ∈ db.tasks.rows, r.date = date ∧ r.text = text) →
        (uncomplete_task db tid date text).tasks = db.tasks)
    ∧ (uncomplete_task db tid date text).completed = db.completed.deleteId tid := by
  have hiff : (db.tasks.rows.any (fun r => r.date == date && r.text == text)) = true
      ↔ ∃ r ∈ db.tasks.rows, r.date = date ∧ r.text = text := by
    simp [List.any_eq_true]
  refine ⟨fun hn => ?_, fun hy => ?_, rfl⟩
  · have : (db.tasks.rows.any (fun r => r.date == date && r.text == text)) = false := by
      rcases hb : db.tasks.rows.any (fun r => r.date == date && r.text == text) with _ | _
      · rfl
      · exact absurd (hiff.mp hb) hn
    simp [uncomplete_task, this]
  · simp [uncomplete_task, hiff.mpr hy]

/-- Witness for **C2**: with an identical Active record `(739040, "a")`
present, uncompleting leaves the Active store unchanged and removes
completed record 4; afterwards, with no identical record present,
uncompleting inserts one. -/
theorem uncomplete_task_spec_witness :
    (uncomplete_task ⟨⟨2, [⟨1, 739040, "a"⟩]⟩, ⟨5, [⟨4, 739040, "a"⟩]⟩⟩ 4 739040 "a").tasks
        = ⟨2, [⟨1, 739040, "a"⟩]⟩
    ∧ (uncomplete_task ⟨⟨2, [⟨1, 739040, "a"⟩]⟩, ⟨5, [⟨4, 739040, "a"⟩]⟩⟩ 4 739040 "b").tasks
        = Store.insert ⟨2, [⟨1, 739040, "a"⟩]⟩ 739040 "b"
    ∧ (uncomplete_task ⟨⟨2, [⟨1, 739040, "a"⟩]⟩, ⟨5, [⟨4, 739040, "a"⟩]⟩⟩ 4 739040 "a").completed
        = Store.deleteId ⟨5, [⟨4, 739040, "a"⟩]⟩ 4 :=
  ⟨(uncomplete_task_spec ⟨⟨2, [⟨1, 739040, "a"⟩]⟩, ⟨5, [⟨4, 739040, "a"⟩]⟩⟩ 4 739040 "a").2.1
      (by decide),
   (uncomplete_task_spec ⟨⟨2, [⟨1, 739040, "a"⟩]⟩, ⟨5, [⟨4, 739040, "a"⟩]⟩⟩ 4 739040 "b").1
      (by decide),
   (uncomplete_task_spec ⟨⟨2, [⟨1, 739040, "a"⟩]⟩, ⟨5, [⟨4, 739040, "a"⟩]⟩⟩ 4 739040 "a").2.2⟩

/-- **C3**: starting from a state whose Active store holds the record
`(tid, date, text)` and where no other record with that `(date, text)`
exists in either store, `complete_task(tid, date, text)` followed by
`uncomplete_task(new_id, date, text)` — `new_id` being the id the
Completed copy acquired — leaves exactly one Active record with that
`(date, text)` and zero Completed records for it. -/
theorem complete_uncomplete_roundtrip (db : DB) (tid date : Nat) (text : String)
    (hmem : (⟨tid, date, text⟩ : TaskRow) ∈ db.tasks.rows)
    (huniq : ∀ r ∈ db.tasks.rows, r.date = date → r.text = text → r.id = tid)
    (hcomp : ∀ r ∈ db.completed.rows, ¬(r.date = date ∧ r.text = text)) :
    ((uncomplete_task (complete_task db tid date text)
        db.completed.nextId date text).tasks.rows.countP
          (fun r => r.date == date && r.text == text) = 1)
    ∧ ((uncomplete_task (complete_task db tid date text)
        db.completed.nextId date text).completed.rows.countP
          (fun r => r.date == date && r.text == text) = 0) := by
  have hnone : ∀ r ∈ db.tasks.rows.filter (fun r => r.id != tid),
      ¬ ((r.date == date && r.text == text) = true) := by
    intro r hr hmatch
    rw [List.mem_filter] at hr
    simp only [Bool.and_eq_true, beq_iff_eq] at hmatch
    have hid := huniq r hr.1 hmatch.1 hmatch.2
    rw [hid] at hr
    simp at hr
  have hany : ((complete_task db tid date text).tasks.rows.any
      (fun r => r.date == date && r.text == text)) = false := by
    rw [List.any_eq_false]
    exact hnone
  constructor
  · simp only [uncomplete_task, hany, Bool.false_eq_true, if_false]
    simp only [Store.insert, complete_task, Store.deleteId, List.countP_append]
    rw [List.countP_eq_zero.mpr hnone]
    simp
  · simp only [uncomplete_task, complete_task, Store.deleteId, Store.insert,
      List.filter_append, List.countP_append]
    have h1 : (db.completed.rows.filter
        (fun r => r.id != db.completed.nextId)).countP
          (fun r => r.date == date && r.text == text) = 0 := by
      rw [List.countP_eq_zero]
      intro r hr hmatch
      simp only [Bool.and_eq_true, beq_iff_eq] at hmatch
      exact hcomp r (List.mem_filter.mp hr).1 ⟨hmatch.1, hmatch.2⟩
    rw [h1]
    simp

/-- Witness for **C3**: completing then uncompleting the single record
`(1, 739040, "a")` of a one-record Active store restores exactly one
Active `(739040, "a")` record and leaves no Completed record for it. -/
theorem complete_uncomplete_roundtrip_witness :
    ((uncomplete_task (complete_task ⟨⟨2, [⟨1, 739040, "a"⟩]⟩, ⟨7, []⟩⟩ 1 739040 "a")
        7 739040 "a").tasks.rows.countP
          (fun r => r.date == 739040 && r.text == "a") = 1)
    ∧ ((uncomplete_task (complete_task ⟨⟨2, [⟨1, 739040, "a"⟩]⟩, ⟨7, []⟩⟩ 1 739040 "a")
        7 739040 "a").completed.rows.countP
          (fun r => r.date == 739040 && r.text == "a") = 0) :=
  complete_uncomplete_roundtrip ⟨⟨2, [⟨1, 739040, "a"⟩]⟩, ⟨7, []⟩⟩ 1 739040 "a"
    (by decide) (by decide) (by decide)

/-- **C8**: deleting an id absent from the respective store is a no-op
that raises no error and changes neither store, and deleting an
already-deleted id (from either store) is idempotent. -/
theorem delete_absent_id_noop (db : DB) (tid tid2 : Nat)
    (h1 : ∀ r ∈ db.tasks.rows, r.id ≠ tid)
    (h2 : ∀ r ∈ db.completed.rows, r.id ≠ tid2) :
    delete_task db tid = db
    ∧ delete_completed_task db tid2 = db
    ∧ (∀ (db2 : DB) (i : Nat),
        delete_task (delete_task db2 i) i = delete_task db2 i
        ∧ delete_completed_task (delete_completed_task db2 i) i
            = delete_completed_task db2 i) := by
  refine ⟨?_, ?_, fun db2 i => ⟨?_, ?_⟩⟩
  · have heq : db.tasks.rows.filter (fun r => r.id != tid) = db.tasks.rows :=
      List.filter_eq_self.mpr (fun r hr => by simp [h1 r hr])
    simp [delete_task, Store.deleteId, heq]
  · have heq : db.completed.rows.filter (fun r => r.id != tid2) = db.completed.rows :=
      List.filter_eq_self.mpr (fun r hr => by simp [h2 r hr])
    simp [delete_completed_task, Store.deleteId, heq]
  · simp [delete_task, Store.deleteId, List.filter_filter]
  · simp [delete_completed_task, Store.deleteId, List.filter_filter]

/-- Witness for **C8**: deleting id 9, absent from both one-record
stores, leaves the state unchanged. -/
theorem delete_absent_id_noop_witness :
    delete_task ⟨⟨2, [⟨1, 739040, "a"⟩]⟩, ⟨2, [⟨1, 739041, "b"⟩]⟩⟩ 9
        = ⟨⟨2, [⟨1, 739040, "a"⟩]⟩, ⟨2, [⟨1, 739041, "b"⟩]⟩⟩
    ∧ delete_completed_task ⟨⟨2, [⟨1, 739040, "a"⟩]⟩, ⟨2, [⟨1, 739041, "b"⟩]⟩⟩ 9
        = ⟨⟨2, [⟨1, 739040, "a"⟩]⟩, ⟨2, [⟨1, 739041, "b"⟩]⟩⟩ :=
  ⟨(delete_absent_id_noop ⟨⟨2, [⟨1, 739040, "a"⟩]⟩, ⟨2, [⟨1, 739041, "b"⟩]⟩⟩ 9 9
      (by decide) (by decide)).1,
   (delete_absent_id_noop ⟨⟨2, [⟨1, 739040, "a"⟩]⟩, ⟨2, [⟨1, 739041, "b"⟩]⟩⟩ 9 9
      (by decide) (by decide)).2.1⟩

/-- **C10**: `complete_task` inserts the Completed record `(date, text)`
unconditionally, without checking that an Active record with the given id
exists; when no Active record has that id, the Completed record is still
created and the Active store is unchanged. -/
theorem complete_task_stale_id (db : DB) (tid date : Nat) (text : String)
    (h : ∀ r ∈ db.tasks.rows, r.id ≠ tid) :
    (complete_task db tid date text).completed = db.completed.insert date text
    ∧ (complete_task db tid date text).tasks = db.tasks := by
  refine ⟨rfl, ?_⟩
  have heq : db.tasks.rows.filter (fun r => r.id != tid) = db.tasks.rows :=
    List.filter_eq_self.mpr (fun r hr => by simp [h r hr])
  simp [complete_task, Store.deleteId, heq]

/-- Witness for **C10**: completing the nonexistent id 9 fabricates a
Completed record while leaving the Active store untouched. -/
theorem complete_task_stale_id_witness :
    (complete_task ⟨⟨2, [⟨1, 739040, "a"⟩]⟩, ⟨1, []⟩⟩ 9 739041 "ghost").completed
        = Store.insert ⟨1, []⟩ 739041 "ghost"
    ∧ (complete_task ⟨⟨2, [⟨1, 739040, "a"⟩]⟩, ⟨1, []⟩⟩ 9 739041 "ghost").tasks
        = ⟨2, [⟨1, 739040, "a"⟩]⟩ :=
  complete_task_stale_id ⟨⟨2, [⟨1, 739040, "a"⟩]⟩, ⟨1, []⟩⟩ 9 739041 "ghost" (by decide)

theorem StoreIdsOk.insert {s : Store} (h : StoreIdsOk s) (date : Nat) (text : String) :
    StoreIdsOk (s.insert date text) := by
  obtain ⟨hb, hp⟩ := h
  constructor
  · intro r hr
    simp only [Store.insert, List.mem_append, List.mem_singleton] at hr
    rcases hr with hr | hr
    · exact lt_trans (hb r hr) (Nat.lt_succ_self _)
    · subst hr; exact Nat.lt_succ_self _
  · simp only [Store.insert]
    rw [List.pairwise_append]
    refine ⟨hp, List.pairwise_singleton _ _, ?_⟩
    intro a ha b hbm
    simp only [List.mem_singleton] at hbm
    subst hbm
    exact Nat.ne_of_lt (hb a ha)

theorem StoreIdsOk.deleteId {s : Store} (h : StoreIdsOk s) (tid : Nat) :
    StoreIdsOk (s.deleteId tid) :=
  ⟨fun r hr => h.1 r (List.mem_filter.mp hr).1,
   List.Pairwise.sublist (List.filter_sublist _) h.2⟩

theorem foldl_insert_ok (entries : List (Nat × String)) : ∀ st : Store, StoreIdsOk st →
    StoreIdsOk (entries.foldl (fun s e => s.insert e.1 e.2) st) := by
  induction entries with
  | nil => intro st h; exact h
  | cons a l ih => intro st h; exact ih _ (h.insert a.1 a.2)

/-- Counterexample to **C9** as stated: starting from the empty state
(both AUTOINCREMENT counters at 1), adding two Active tasks for
2024-06-03 and completing the second one yields an Active record and a
Completed record for the same date that share id 1 — the per-date id
sets of the two stores are not disjoint, because ids are store-scoped. -/
theorem store_id_disjointness_counterexample :
    DisjointIds (add_task_to_db (add_task_to_db ⟨⟨1, []⟩, ⟨1, []⟩⟩ 739040 "a") 739040 "b")
    ∧ ¬ DisjointIds (complete_task
        (add_task_to_db (add_task_to_db ⟨⟨1, []⟩, ⟨1, []⟩⟩ 739040 "a") 739040 "b")
        2 739040 "b") := by
  constructor <;> · unfold DisjointIds; decide

/-- **C9** (amended): what every store operation actually preserves is
well-formedness of each store separately — all ids within the Active
store are pairwise distinct and all ids within the Completed store are
pairwise distinct (each below its store's next AUTOINCREMENT id); ids
are not disjoint across the two stores. -/
theorem per_store_id_uniqueness (db : DB) (h : DBIdsOk db) :
    (∀ date text, DBIdsOk (add_task_to_db db date text))
    ∧ (∀ entries, DBIdsOk (add_recurring_tasks_to_db db entries))
    ∧ (∀ tid date text, DBIdsOk (complete_task db tid date text))
    ∧ (∀ tid date text, DBIdsOk (uncomplete_task db tid date text))
    ∧ (∀ tid, DBIdsOk (delete_task db tid))
    ∧ (∀ tid, DBIdsOk (delete_completed_task db tid)) := by
  obtain ⟨ht, hc⟩ := h
  refine ⟨fun date text => ⟨ht.insert date text, hc⟩,
    fun entries => ⟨foldl_insert_ok entries db.tasks ht, hc⟩,
    fun tid date text => ⟨ht.deleteId tid, hc.insert date text⟩,
    fun tid date text => ⟨?_, hc.deleteId tid⟩,
    fun tid => ⟨ht.deleteId tid, hc⟩,
    fun tid => ⟨ht, hc.deleteId tid⟩⟩
  show StoreIdsOk (if _ then db.tasks else db.tasks.insert date text)
  split
  · exact ht
  · exact ht.insert date text

/-- Witness for the amended **C9**: from a well-formed one-record state,
completing that record keeps ids unique within each store. -/
theorem per_store_id_uniqueness_witness :
    DBIdsOk (complete_task ⟨⟨2, [⟨1, 739040, "a"⟩]⟩, ⟨1, []⟩⟩ 1 739040 "a") :=
  (per_store_id_uniqueness ⟨⟨2, [⟨1, 739040, "a"⟩]⟩, ⟨1, []⟩⟩
    ⟨⟨by decide, by decide⟩, ⟨by decide, by decide⟩⟩).2.2.1 1 739040 "a"

theorem highlight_step_point (db : DB) (today visY visM : Nat)
    (fmt : Nat → Highlight) (dstr x : Nat) :
    highlight_step db today visY visM fmt dstr x
      = if x = dstr ∧ highlight_for db today visY visM dstr ≠ Highlight.noneH
        then highlight_for db today visY visM dstr else fmt x := by
  unfold highlight_step highlight_for
  split_ifs <;> simp_all

theorem foldl_highlight_point (db : DB) (today visY visM : Nat) :
    ∀ (l : List Nat) (fmt : Nat → Highlight) (x : Nat),
      (l.foldl (highlight_step db today visY visM) fmt) x
        = if x ∈ l ∧ highlight_for db today visY visM x ≠ Highlight.noneH
          then highlight_for db today visY visM x else fmt x := by
  intro l
  induction l with
  | nil => intro fmt x; simp
  | cons a l ih =>
      intro fmt x
      rw [List.foldl_cons, ih, highlight_step_point]
      by_cases h1 : x ∈ l ∧ highlight_for db today visY visM x ≠ Highlight.noneH
      · rw [if_pos h1, if_pos ⟨List.mem_cons_of_mem a h1.1, h1.2⟩]
      · rw [if_neg h1]
        by_cases h2 : x = a
        · subst h2
          by_cases h3 : highlight_for db today visY visM x = Highlight.noneH
          · rw [if_neg (fun hc => hc.2 h3), if_neg (fun hc => hc.2 h3)]
          · rw [if_pos ⟨rfl, h3⟩, if_pos ⟨List.mem_cons_self x l, h3⟩]
        · rw [if_neg (fun hc => h2 hc.1), if_neg ?_]
          rintro ⟨hmem, hne⟩
          rcases List.mem_cons.mp hmem with hxa | hxl
          · exact h2 hxa
          · exact h1 ⟨hxl, hne⟩

theorem update_highlights_point (db : DB) (today selected x : Nat) :
    update_calendar_task_highlights db today selected x
      = if x = today then Highlight.todayH
        else if x ∈ get_all_task_dates db
          then highlight_for db today (yearOf selected) (monthOf selected) x
          else Highlight.noneH := by
  unfold update_calendar_task_highlights
  by_cases ht : x = today
  · simp [ht]
  · rw [if_neg ht, foldl_highlight_point, if_neg ht]
    by_cases hmem : x ∈ get_all_task_dates db
    · rw [if_pos hmem]
      by_cases hf : highlight_for db today (yearOf selected) (monthOf selected) x
          = Highlight.noneH
      · rw [if_neg (fun hc => hc.2 hf), hf]
      · rw [if_pos ⟨hmem, hf⟩]
    · rw [if_neg hmem, if_neg (fun hc => hmem hc.1)]

theorem mem_all_dates_of_active (db : DB) (d : Nat)
    (h : get_tasks_for_date db d ≠ []) : d ∈ get_all_task_dates db := by
  unfold get_tasks_for_date at h
  rw [Ne, List.map_eq_nil_iff] at h
  obtain ⟨r, hr⟩ := List.exists_mem_of_ne_nil _ h
  rw [List.mem_filter, beq_iff_eq] at hr
  unfold get_all_task_dates
  rw [List.mem_dedup, List.mem_append]
  exact Or.inl (List.mem_map.mpr ⟨r, hr.1, hr.2⟩)

theorem mem_all_dates_of_completed (db : DB) (d : Nat)
    (h : get_completed_tasks_for_date db d ≠ []) : d ∈ get_all_task_dates db := by
  unfold get_completed_tasks_for_date at h
  rw [Ne, List.map_eq_nil_iff] at h
  obtain ⟨r, hr⟩ := List.exists_mem_of_ne_nil _ h
  rw [List.mem_filter, beq_iff_eq] at hr
  unfold get_all_task_dates
  rw [List.mem_dedup, List.mem_append]
  exact Or.inr (List.mem_map.mpr ⟨r, hr.1, hr.2⟩)

/-- **C4**: for a date `d` of the visible month that has at least one
task record: today always gets the "today" color, even when overdue
Active records exist; otherwise a past date with Active records gets the
"overdue" color; a non-past date with Active records gets no special
color; and a date with no Active but at least one Completed record gets
the "all done" color. -/
theorem calendar_highlight_spec (db : DB) (today selected d : Nat)
    (hy : yearOf d = yearOf selected) (hm : monthOf d = monthOf selected)
    (hin : get_tasks_for_date db d ≠ [] ∨ get_completed_tasks_for_date db d ≠ []) :
    (d = today → update_calendar_task_highlights db today selected d = Highlight.todayH)
    ∧ (d ≠ today → get_tasks_for_date db d ≠ [] → d < today →
        update_calendar_task_highlights db today selected d = Highlight.overdueH)
    ∧ (d ≠ today → get_tasks_for_date db d ≠ [] → today ≤ d →
        update_calendar_task_highlights db today selected d = Highlight.noneH)
    ∧ (d ≠ today → get_tasks_for_date db d = [] →
        get_completed_tasks_for_date db d ≠ [] →
        update_calendar_task_highlights db today selected d = Highlight.allDoneH) := by
  have hmem : d ∈ get_all_task_dates db := by
    rcases hin with h | h
    · exact mem_all_dates_of_active db d h
    · exact mem_all_dates_of_completed db d h
  have hscope : ¬ (yearOf d ≠ yearOf selected ∨ monthOf d ≠ monthOf selected) := by
    rw [not_or, not_not, not_not]
    exact ⟨hy, hm⟩
  refine ⟨fun ht => ?_, fun ht ha hlt => ?_, fun ht ha hge => ?_, fun ht ha hc => ?_⟩
  · rw [update_highlights_point, if_pos ht]
  · rw [update_highlights_point, if_neg ht, if_pos hmem]
    unfold highlight_for
    rw [if_neg hscope, if_neg ht, if_pos ha, if_pos hlt]
  · rw [update_highlights_point, if_neg ht, if_pos hmem]
    unfold highlight_for
    rw [if_neg hscope, if_neg ht, if_pos ha, if_neg (by omega)]
  · rw [update_highlights_point, if_neg ht, if_pos hmem]
    unfold highlight_for
    rw [if_neg hscope, if_neg ht, if_neg (by simp [ha]), if_pos hc]

/-- Witness for **C4**: in a June 2024 state with today = 2024-06-08,
the overdue 2024-06-03 turns red, the all-done 2024-06-04 turns green,
today turns blue despite having an Active record, and the future
2024-06-09 with an Active record gets no color. -/
theorem calendar_highlight_spec_witness :
    update_calendar_task_highlights
        ⟨⟨4, [⟨1, 739040, "a"⟩, ⟨2, 739045, "t"⟩, ⟨3, 739046, "f"⟩]⟩,
         ⟨3, [⟨1, 739041, "c"⟩, ⟨2, 739010, "old"⟩]⟩⟩ 739045 739045 739040
      = Highlight.overdueH
    ∧ update_calendar_task_highlights
        ⟨⟨4, [⟨1, 739040, "a"⟩, ⟨2, 739045, "t"⟩, ⟨3, 739046, "f"⟩]⟩,
         ⟨3, [⟨1, 739041, "c"⟩, ⟨2, 739010, "old"⟩]⟩⟩ 739045 739045 739041
      = Highlight.allDoneH
    ∧ update_calendar_task_highlights
        ⟨⟨4, [⟨1, 739040, "a"⟩, ⟨2, 739045, "t"⟩, ⟨3, 739046, "f"⟩]⟩,
         ⟨3, [⟨1, 739041, "c"⟩, ⟨2, 739010, "old"⟩]⟩⟩ 739045 739045 739045
      = Highlight.todayH
    ∧ update_calendar_task_highlights
        ⟨⟨4, [⟨1, 739040, "a"⟩, ⟨2, 739045, "t"⟩, ⟨3, 739046, "f"⟩]⟩,
         ⟨3, [⟨1, 739041, "c"⟩, ⟨2, 739010, "old"⟩]⟩⟩ 739045 739045 739046
      = Highlight.noneH :=
  ⟨(calendar_highlight_spec
      ⟨⟨4, [⟨1, 739040, "a"⟩, ⟨2, 739045, "t"⟩, ⟨3, 739046, "f"⟩]⟩,
       ⟨3, [⟨1, 739041, "c"⟩, ⟨2, 739010, "old"⟩]⟩⟩ 739045 739045 739040
      (by decide) (by decide) (by decide)).2.1 (by decide) (by decide) (by decide),
   (calendar_highlight_spec
      ⟨⟨4, [⟨1, 739040, "a"⟩, ⟨2, 739045, "t"⟩, ⟨3, 739046, "f"⟩]⟩,
       ⟨3, [⟨1, 739041, "c"⟩, ⟨2, 739010, "old"⟩]⟩⟩ 739045 739045 739041
      (by decide) (by decide) (by decide)).2.2.2 (by decide) (by decide) (by decide),
   (calendar_highlight_spec
      ⟨⟨4, [⟨1, 739040, "a"⟩, ⟨2, 739045, "t"⟩, ⟨3, 739046, "f"⟩]⟩,
       ⟨3, [⟨1, 739041, "c"⟩, ⟨2, 739010, "old"⟩]⟩⟩ 739045 739045 739045
      (by decide) (by decide) (by decide)).1 rfl,
   (calendar_highlight_spec
      ⟨⟨4, [⟨1, 739040, "a"⟩, ⟨2, 739045, "t"⟩, ⟨3, 739046, "f"⟩]⟩,
       ⟨3, [⟨1, 739041, "c"⟩, ⟨2, 739010, "old"⟩]⟩⟩ 739045 739045 739046
      (by decide) (by decide) (by decide)).2.2.1 (by decide) (by decide) (by decide)⟩

/-- **C5**: highlight recomputation recolors only dates whose year and
month are the ones shown by the calendar (the year+month of the selected
date); every date of any other month — today's blue marker aside, which
is not task-state coloring — is left with no task-state color. -/
theorem highlight_scope_frame (db : DB) (today selected d : Nat)
    (hout : yearOf d ≠ yearOf selected ∨ monthOf d ≠ monthOf selected)
    (hd : d ≠ today) :
    update_calendar_task_highlights db today selected d = Highlight.noneH := by
  rw [update_highlights_point, if_neg hd]
  by_cases hmem : d ∈ get_all_task_dates db
  · rw [if_pos hmem]
    unfold highlight_for
    rw [if_pos hout]
  · rw [if_neg hmem]

/-- Witness for **C5**: 2024-05-04 has a (completed) task record and is
overdue-free, yet — being outside the visible June 2024 — it receives no
task-state color when highlights are recomputed for a June selection. -/
theorem highlight_scope_frame_witness :
    update_calendar_task_highlights
        ⟨⟨4, [⟨1, 739010, "may"⟩, ⟨2, 739045, "t"⟩]⟩, ⟨2, [⟨1, 739010, "old"⟩]⟩⟩
        739045 739045 739010
      = Highlight.noneH :=
  highlight_scope_frame
    ⟨⟨4, [⟨1, 739010, "may"⟩, ⟨2, 739045, "t"⟩]⟩, ⟨2, [⟨1, 739010, "old"⟩]⟩⟩
    739045 739045 739010 (by decide) (by decide)

/-- **C6**: when the selected date is strictly before today, the Active
records displayed for it are read-only — checkbox and delete disabled and
the add controls disabled — while displayed Completed records keep their
checkbox enabled, so they can still be toggled back to incomplete. -/
theorem past_date_readonly (db : DB) (today qdate : Nat) (h : qdate < today) :
    (∀ v ∈ (load_tasks_for_date db today qdate).1, v.done = false →
        v.checkbox_enabled = false ∧ v.delete_enabled = false)
    ∧ (∀ v ∈ (load_tasks_for_date db today qdate).1, v.done = true →
        v.checkbox_enabled = true)
    ∧ (load_tasks_for_date db today qdate).2.1 = false
    ∧ (load_tasks_for_date db today qdate).2.2 = false := by
  have hp : decide (qdate < today) = true := decide_eq_true h
  refine ⟨fun v hv hdone => ?_, fun v hv hdone => ?_, ?_, ?_⟩
  · simp only [load_tasks_for_date, hp, Bool.not_true, List.mem_append] at hv
    rcases hv with hv | hv <;> obtain ⟨p, hp2, rfl⟩ := List.mem_map.mp hv <;> simp_all
  · simp only [load_tasks_for_date, hp, Bool.not_true, List.mem_append] at hv
    rcases hv with hv | hv <;> obtain ⟨p, hp2, rfl⟩ := List.mem_map.mp hv <;> simp_all
  · simp [load_tasks_for_date, hp]
  · simp [load_tasks_for_date, hp]

/-- Witness for **C6**: for the past date 2024-06-03 (today being
2024-06-08) the add controls are disabled. -/
theorem past_date_readonly_witness :
    (load_tasks_for_date ⟨⟨3, [⟨1, 739040, "a"⟩]⟩, ⟨2, [⟨1, 739040, "c"⟩]⟩⟩
        739045 739040).2.1 = false
    ∧ (load_tasks_for_date ⟨⟨3, [⟨1, 739040, "a"⟩]⟩, ⟨2, [⟨1, 739040, "c"⟩]⟩⟩
        739045 739040).2.2 = false :=
  ⟨(past_date_readonly ⟨⟨3, [⟨1, 739040, "a"⟩]⟩, ⟨2, [⟨1, 739040, "c"⟩]⟩⟩
      739045 739040 (by decide)).2.2.1,
   (past_date_readonly ⟨⟨3, [⟨1, 739040, "a"⟩]⟩, ⟨2, [⟨1, 739040, "c"⟩]⟩⟩
      739045 739040 (by decide)).2.2.2⟩
